import Mathlib

/-!
# Users service: request pipeline

A shallow embedding of the Express application under `src/`:

* `src/middleware/authMiddleware.js`  : `authMiddleware`
* `src/middleware/validate.js`        : `validateUser`, `validateUserEmail`
* `src/middleware/errorHandler.js`    : `errorHandler`
* `src/models/User.js`                : the `User` schema and the collection operations used
* `src/controllers/user.controller.js`: the seven controller methods
* `src/routes/users.js`, `src/index.js`: `usersRouter`, `app`

A middleware is a function from the request (and the collection) to an `Outcome`: it either
calls `next()`, calls `next(err)` or sends a response.  The collection is a list of documents
in insertion order and every store call takes and returns it explicitly.

The collaborators that are not part of the repository (validator.js `isEmail`, the
JavaScript `toLowerCase`, the regular-expression engine of the database) are fields of
`Platform`; theorems hold for every platform, concrete evaluations use `refPlatform`.
-/

namespace UsersApi

/-! ## JavaScript primitives -/

/-- White space and line terminators of ECMAScript, the characters `String.prototype.trim`
strips. -/
def isJsWhiteSpace (c : Char) : Bool :=
  let n := c.toNat
  n == 0x09 || n == 0x0A || n == 0x0B || n == 0x0C || n == 0x0D || n == 0x20 ||
  n == 0xA0 || n == 0x1680 || (0x2000 ≤ n && n ≤ 0x200A) || n == 0x2028 ||
  n == 0x2029 || n == 0x202F || n == 0x205F || n == 0x3000 || n == 0xFEFF

/-- JavaScript `s.trim()`. -/
def jsTrim (s : String) : String :=
  ⟨((s.data.dropWhile isJsWhiteSpace).reverse.dropWhile isJsWhiteSpace).reverse⟩

/-- JavaScript `a || b` on an optional number: `undefined` and `0` are falsy. -/
def orNum (a : Option Nat) (b : Nat) : Nat :=
  match a with
  | some n => if n = 0 then b else n
  | none => b

/-- JavaScript `a || b` on a string: the empty string is falsy.  An error object without a
message has the message `""` (the default of `Error.prototype.message`). -/
def orStr (a b : String) : String :=
  if a.length = 0 then b else a

/-! ## Collaborators outside the repository -/

/-- An error thrown by the data access layer (Mongoose or the database driver).  Such an
object has a `name`, a `message` and, for server errors, a numeric `code`; it has no HTTP
`status`. -/
structure StoreError where
  name : String
  message : String
  code : Option Nat
deriving DecidableEq, Repr

/-- The library functions the source calls. -/
structure Platform where
  /-- The check `isEmail()` of validator.js with its default options. -/
  isEmail : String → Bool
  /-- JavaScript `String.prototype.toLowerCase`. -/
  toLowerCase : String → String
  /-- The database evaluating `name: { $regex: search, $options: "i" }`: the matcher of the
  pattern, or the error the query is rejected with (pattern missing or not a regular
  expression). -/
  regexI : Option String → Except StoreError (String → Bool)

/-! ## Data model -/

/-- A document of the `users` collection (`UserSchema` with `timestamps: true`).
Identifiers and instants are abstract naturals. -/
structure User where
  _id : Nat
  name : String
  email : String
  createdAt : Nat
  updatedAt : Nat
deriving DecidableEq, Repr

/-- The collection, in insertion order. -/
abbrev Store := List User

/-- What the environment contributes to one store call: whether the call fails for a reason
of its own (connection lost, server error), the identifier the store assigns to an inserted
document, and the clock. -/
structure StoreEnv where
  fault : Option StoreError
  newId : Nat
  now : Nat
deriving DecidableEq, Repr

inductive Method
  | GET | HEAD | POST | PUT | DELETE | OPTIONS | PATCH
deriving DecidableEq, Repr

/-- An incoming request, reduced to what the users router reads.  `path` holds the decoded
segments below the `/users` mount point; `params_email` is `req.params.email`, filled in by
the router for the `/:email` routes.  A header, query parameter or body field is a string
when it is present and `none` when it is `undefined`. -/
structure Request where
  method : Method
  path : List String
  headers_auth_token : Option String
  query_search : Option String
  body_name : Option String
  body_email : Option String
  params_email : Option String
deriving DecidableEq, Repr

/-- The request as a route with a path parameter sees it. -/
def Request.withParams (req : Request) (params : Option String) : Request :=
  { req with params_email := params }

/-- The object handed to `next(err)` and read by `errorHandler`. -/
structure JsError where
  status : Option Nat
  message : String
  code : Option Nat
  name : String
deriving DecidableEq, Repr

/-- A store error as the JavaScript object caught in a `catch` block: the same fields, no
`status`. -/
def StoreError.thrown (e : StoreError) : JsError :=
  { status := none, message := e.message, code := e.code, name := e.name }

/-- The value of `const error = new Error(message); error.status = status;`. -/
def newError (message : String) (status : Nat) : JsError :=
  { status := some status, message := message, code := none, name := "Error" }

/-- One entry of `validationResult(req).array()`. -/
structure FieldError where
  value : Option String
  msg : String
  param : String
  location : String
deriving DecidableEq, Repr

/-- The argument of `res.json(...)`, one constructor for each shape the source sends. -/
inductive Body
  /-- The envelope `{ error: { status, message } }`. -/
  | errorEnvelope (status : Nat) (message : String)
  /-- The validation answer `{ errors: [...] }`. -/
  | errors (list : List FieldError)
  /-- The object `{ message }`. -/
  | message (text : String)
  /-- A single document. -/
  | user (doc : User)
  /-- An array of documents. -/
  | users (docs : List User)
  /-- The static description sent by `getUserOptions`. -/
  | optionsDoc
  /-- No body: `res.end()`. -/
  | empty
  /-- The HTML page of the final handler of Express, sent when a handler throws. -/
  | finalHandlerPage
deriving DecidableEq, Repr

structure Response where
  statusCode : Nat
  headers : List (String × String)
  body : Body
deriving DecidableEq, Repr

/-- What a middleware does with a request. -/
inductive Outcome
  /-- The call `next()`: the request goes on to the following stage. -/
  | next (req : Request)
  /-- The call `next(err)`: the error goes to the error-handling middleware. -/
  | nextErr (err : JsError)
  /-- A response was sent; the chain stops. -/
  | sent (res : Response)
deriving DecidableEq, Repr

/-! ## `src/middleware/authMiddleware.js` -/

/-- The token compared against in `authMiddleware`. -/
def secretToken : String := "oleg-token-123"

def authMiddleware (req : Request) : Outcome :=
  match req.headers_auth_token with
  | none => .sent ⟨401, [], .errorEnvelope 401 "Необхідна авторизація"⟩
  | some authToken =>
    if authToken.length = 0 ∨ authToken ≠ secretToken then
      .sent ⟨401, [], .errorEnvelope 401 "Необхідна авторизація"⟩
    else
      .next req

/-! ## `src/middleware/errorHandler.js` -/

/-- The call `res.status(statusCode).json(body)` inside the error handler, as the client sees
it.  Node refuses a status code outside 100..999: the exception leaves the handler and the
final handler of Express answers 500 with its own page.  A response with an informational
status or with 204, 205 or 304 goes out without a body. -/
def sendJson (statusCode : Nat) (body : Body) : Response :=
  if statusCode < 100 ∨ 999 < statusCode then ⟨500, [], .finalHandlerPage⟩
  else if statusCode < 200 ∨ statusCode = 204 ∨ statusCode = 205 ∨ statusCode = 304 then
    ⟨statusCode, [], .empty⟩
  else ⟨statusCode, [], body⟩

def errorHandler (err : JsError) : Response :=
  let statusCode := orNum err.status 500
  sendJson statusCode
    (.errorEnvelope statusCode (orStr err.message "Внутрішня помилка сервера"))

/-- The error carries no status or an HTTP error status, 400 to 599: the errors this
application hands to `errorHandler` are of this kind. -/
def carriesErrorStatus (err : JsError) : Bool :=
  match err.status with
  | none => true
  | some s => 400 ≤ s && s ≤ 599

/-! ## `src/middleware/validate.js` -/

/-- The string a standard validator of express-validator is applied to: `undefined` becomes
the empty string. -/
def fieldString (value : Option String) : String :=
  value.getD ""

/-- The variation selectors U+FE0E and U+FE0F, which `isLength` does not count. -/
def isPresentationSelector (c : Char) : Bool :=
  c.toNat == 0xFE0E || c.toNat == 0xFE0F

/-- The length `isLength` of validator.js measures: the UTF-16 length less the surrogate
pairs, that is the number of code points, less the variation selectors U+FE0E and U+FE0F. -/
def validatorLength (str : String) : Nat :=
  str.length - (str.data.filter isPresentationSelector).length

/-- The check `isLength` of validator.js with both bounds. -/
def isLength (str : String) (min max : Nat) : Bool :=
  min ≤ validatorLength str && validatorLength str ≤ max

/-- The chain `body("name").notEmpty().withMessage(..).isLength(min 2, max 100).withMessage(..)`:
every validator of the chain runs, each failure adds an entry. -/
def bodyNameChain (req : Request) : List FieldError :=
  let value := req.body_name
  (if (fieldString value).length = 0 then
    [⟨value, "Ім\x27я користувача є обов\x27язковим", "name", "body"⟩] else []) ++
  (if isLength (fieldString value) 2 100 then [] else
    [⟨value, "Довжина імені має бути від 2 до 100 символів", "name", "body"⟩])

/-- The chain `body("email").notEmpty().withMessage(..).isEmail().withMessage(..)`. -/
def bodyEmailChain (P : Platform) (req : Request) : List FieldError :=
  let value := req.body_email
  (if (fieldString value).length = 0 then
    [⟨value, "Email є обов\x27язковим", "email", "body"⟩] else []) ++
  (if P.isEmail (fieldString value) then [] else
    [⟨value, "Введіть коректний email", "email", "body"⟩])

/-- The chain `param("email").isEmail().withMessage(..)`. -/
def paramEmailChain (P : Platform) (req : Request) : List FieldError :=
  let value := req.params_email
  if P.isEmail (fieldString value) then [] else
    [⟨value, "Введіть коректний email", "email", "params"⟩]

/-- The array `validateUser`: the two body chains, then the function that answers 400 with
all collected entries or calls `next()`. -/
def validateUser (P : Platform) (req : Request) : Outcome :=
  let errors := bodyNameChain req ++ bodyEmailChain P req
  if errors.isEmpty then .next req else .sent ⟨400, [], .errors errors⟩

/-- The array `validateUserEmail`. -/
def validateUserEmail (P : Platform) (req : Request) : Outcome :=
  let errors := paramEmailChain P req
  if errors.isEmpty then .next req else .sent ⟨400, [], .errors errors⟩

/-! ## `src/models/User.js`

The schema declares `name` (required, trimmed) and `email` (required, unique, lowercased,
trimmed) with timestamps.  The operations below are the Mongoose calls the controllers make,
with the behaviour the schema gives them: the setters of a path run on the value of a new
document, of an update and of a query filter; `save` validates the document, an update does
not (no `runValidators`); the unique index rejects a second document with the same email
with the server error 11000.  A store call fails as a whole when the environment says so
(`StoreEnv.fault`), and then leaves the collection as it is. -/

/-- The setter of a path declared with `trim: true`. -/
def setTrim (v : Option String) : Option String :=
  v.map fun s => if s.length = 0 then s else jsTrim s

/-- The setter of a path declared with `lowercase: true`. -/
def setLowercase (P : Platform) (v : Option String) : Option String :=
  v.map fun s => if s.length = 0 then s else P.toLowerCase s

/-- Setters of the path `name` (`trim`). -/
def castName (v : Option String) : Option String :=
  setTrim v

/-- Setters of the path `email` (`lowercase`, then `trim`), applied when a document is built,
when an update is cast and when a query filter is cast. -/
def castEmail (P : Platform) (v : Option String) : Option String :=
  setTrim (setLowercase P v)

/-- The validator of `required: [true, message]` on a string path: the value is a non-empty
string. -/
def checkRequired (v : Option String) : Bool :=
  match v with
  | some s => s.length != 0
  | none => false

/-- The messages of the paths failing `required`, as `path: message`. -/
def requiredFailures (name email : Option String) : List String :=
  (if checkRequired name then [] else ["name: Імя користувача є обов\x27язковим"]) ++
  (if checkRequired email then [] else ["email: Email є обов\x27язковим"])

/-- The `ValidationError` of a document that fails validation. -/
def validationError (failures : List String) : StoreError :=
  { name := "ValidationError",
    message := "User validation failed: " ++ ", ".intercalate failures,
    code := none }

/-- The server error of an insert or update that breaks the unique index on `email`. -/
def duplicateKeyError : StoreError :=
  { name := "MongoError", message := "E11000 duplicate key error", code := some 11000 }

/-- The query `User.find()`. -/
def User.find (env : StoreEnv) (store : Store) : Except StoreError (List User) :=
  match env.fault with
  | some e => .error e
  | none => .ok store

/-- The query `User.findOne({ email })`: the first document whose email is the cast filter
value. -/
def User.findOne (P : Platform) (env : StoreEnv) (email : Option String) (store : Store) :
    Except StoreError (Option User) :=
  match env.fault with
  | some e => .error e
  | none => .ok (store.find? fun u => castEmail P email == some u.email)

/-- The query `User.find({ $or: [{ email: search }, { name: { $regex: search, $options: "i" } }] })`. -/
def User.findSearch (P : Platform) (env : StoreEnv) (search : Option String) (store : Store) :
    Except StoreError (List User) :=
  match env.fault with
  | some e => .error e
  | none =>
    match P.regexI search with
    | .error e => .error e
    | .ok re => .ok (store.filter fun u => castEmail P search == some u.email || re u.name)

/-- The call `new User({ name, email }).save()`: the setters run when the document is built, the
document is validated, then inserted with a fresh identifier and both timestamps. -/
def User.save (P : Platform) (env : StoreEnv) (name email : Option String) (store : Store) :
    Except StoreError (User × Store) :=
  let name := castName name
  let email := castEmail P email
  match requiredFailures name email with
  | [] =>
    match env.fault with
    | some e => .error e
    | none =>
      if store.any fun u => some u.email == email then .error duplicateKeyError
      else
        let doc : User := ⟨env.newId, name.getD "", email.getD "", env.now, env.now⟩
        .ok (doc, store ++ [doc])
  | failures => .error (validationError failures)

/-- Replaces the first document selected by `hit`. -/
def replaceFirst (hit : User → Bool) (doc1 : User) : Store → Store
  | [] => []
  | u :: rest => if hit u then doc1 :: rest else u :: replaceFirst hit doc1 rest

/-- The call `User.findOneAndUpdate({ email: filter }, { name, email }, { new: true })`: the
filter and the update are cast with the setters, validators do not run (`runValidators` is
not set), the first matching document is modified and returned.  A field given as
`undefined` is written as null, rendered here as the empty string. -/
def User.findOneAndUpdate (P : Platform) (env : StoreEnv) (filter : Option String)
    (name email : Option String) (store : Store) : Except StoreError (Option User × Store) :=
  match env.fault with
  | some e => .error e
  | none =>
    let hit := fun (u : User) => castEmail P filter == some u.email
    match store.find? hit with
    | none => .ok (none, store)
    | some doc =>
      let doc1 : User :=
        { doc with name := (castName name).getD "", email := (castEmail P email).getD "",
                   updatedAt := env.now }
      if (store.eraseP hit).any fun u => u.email == doc1.email then .error duplicateKeyError
      else .ok (some doc1, replaceFirst hit doc1 store)

/-- The call `User.findOneAndDelete({ email: filter })`. -/
def User.findOneAndDelete (P : Platform) (env : StoreEnv) (filter : Option String)
    (store : Store) : Except StoreError (Option User × Store) :=
  match env.fault with
  | some e => .error e
  | none =>
    let hit := fun (u : User) => castEmail P filter == some u.email
    match store.find? hit with
    | none => .ok (none, store)
    | some doc => .ok (some doc, store.eraseP hit)

/-! ## `src/controllers/user.controller.js` -/

/-- The default status of `res.json(x)` is 200. -/
def json (statusCode : Nat) (body : Body) : Response :=
  ⟨statusCode, [], body⟩

def getAllUsers (env : StoreEnv) (_req : Request) (store : Store) : Outcome × Store :=
  match User.find env store with
  | .ok users => (.sent (json 200 (.users users)), store)
  | .error err => (.sent (json 500 (.message err.thrown.message)), store)

def getUserByEmail (P : Platform) (env : StoreEnv) (req : Request) (store : Store) :
    Outcome × Store :=
  match User.findOne P env req.params_email store with
  | .ok none => (.nextErr (newError "Користувача не знайдено" 404), store)
  | .ok (some user) => (.sent (json 200 (.user user)), store)
  | .error err => (.nextErr err.thrown, store)

def searchUsers (P : Platform) (env : StoreEnv) (req : Request) (store : Store) :
    Outcome × Store :=
  match User.findSearch P env req.query_search store with
  | .ok users =>
    if users.length = 0 then (.nextErr (newError "Користувачів не знайдено" 404), store)
    else (.sent (json 200 (.users users)), store)
  | .error err => (.nextErr err.thrown, store)

/-- The `catch` block shared by `createUser` and `updateUser`, up to the text of the
duplicate message. -/
def translateStoreError (duplicateMessage : String) (err : JsError) : JsError :=
  if err.code = some 11000 then newError duplicateMessage 400
  else if err.name = "ValidationError" then newError err.message 400
  else err

def createUser (P : Platform) (env : StoreEnv) (req : Request) (store : Store) :
    Outcome × Store :=
  match User.save P env req.body_name req.body_email store with
  | .ok (savedUser, store1) => (.sent (json 201 (.user savedUser)), store1)
  | .error err =>
    (.nextErr (translateStoreError "Користувач з таким email вже існує" err.thrown), store)

def updateUser (P : Platform) (env : StoreEnv) (req : Request) (store : Store) :
    Outcome × Store :=
  match User.findOneAndUpdate P env req.params_email req.body_name req.body_email store with
  | .ok (none, store1) => (.nextErr (newError "Користувача не знайдено" 404), store1)
  | .ok (some updatedUser, store1) => (.sent (json 200 (.user updatedUser)), store1)
  | .error err =>
    (.nextErr (translateStoreError "Такий email вже використовується" err.thrown), store)

def deleteUser (P : Platform) (env : StoreEnv) (req : Request) (store : Store) :
    Outcome × Store :=
  match User.findOneAndDelete P env req.params_email store with
  | .ok (none, store1) => (.nextErr (newError "Користувача не знайдено" 404), store1)
  | .ok (some _, store1) => (.sent ⟨204, [], .empty⟩, store1)
  | .error err => (.nextErr err.thrown, store)

def getUserOptions (_req : Request) (store : Store) : Outcome × Store :=
  (.sent ⟨200, [("Allow", "GET, PUT, DELETE, OPTIONS")], .optionsDoc⟩, store)

/-! ## `src/routes/users.js` -/

/-- The middleware functions the routing table refers to. -/
inductive Stage
  | authMiddleware | validateUserEmail | validateUser
  | getAllUsers | searchUsers | getUserByEmail | createUser | updateUser | deleteUser
  | getUserOptions
deriving DecidableEq, Repr

/-- Runs one stage.  Only controllers touch the collection. -/
def Stage.run (P : Platform) (env : StoreEnv) (s : Stage) (req : Request) (store : Store) :
    Outcome × Store :=
  match s with
  | .authMiddleware => (UsersApi.authMiddleware req, store)
  | .validateUserEmail => (UsersApi.validateUserEmail P req, store)
  | .validateUser => (UsersApi.validateUser P req, store)
  | .getAllUsers => UsersApi.getAllUsers env req store
  | .searchUsers => UsersApi.searchUsers P env req store
  | .getUserByEmail => UsersApi.getUserByEmail P env req store
  | .createUser => UsersApi.createUser P env req store
  | .updateUser => UsersApi.updateUser P env req store
  | .deleteUser => UsersApi.deleteUser P env req store
  | .getUserOptions => UsersApi.getUserOptions req store

/-- What running a chain of stages yields: the outcome of the last stage that ran, the
collection afterwards, and the stages that ran, in order. -/
structure ChainResult where
  outcome : Outcome
  store : Store
  ran : List Stage
deriving DecidableEq, Repr

/-- Express runs the handlers of a route in order; a handler that does not call `next()` ends
the chain. -/
def runChain (P : Platform) (env : StoreEnv) : List Stage → Request → Store → ChainResult
  | [], req, store => ⟨.next req, store, []⟩
  | s :: rest, req, store =>
    match s.run P env req store with
    | (.next req1, store1) =>
      let r := runChain P env rest req1 store1
      ⟨r.outcome, r.store, s :: r.ran⟩
    | (outcome, store1) => ⟨outcome, store1, [s]⟩

/-- The path of a route of the users router. -/
inductive Pattern
  | root | search | email
deriving DecidableEq, Repr

structure Route where
  method : Method
  pattern : Pattern
  stages : List Stage
deriving DecidableEq, Repr

/-- The routing table, in registration order. -/
def usersRouter : List Route :=
  [ ⟨.GET, .root, [.authMiddleware, .getAllUsers]⟩,
    ⟨.GET, .search, [.authMiddleware, .searchUsers]⟩,
    ⟨.GET, .email, [.authMiddleware, .validateUserEmail, .getUserByEmail]⟩,
    ⟨.POST, .root, [.authMiddleware, .validateUser, .createUser]⟩,
    ⟨.PUT, .email, [.authMiddleware, .validateUserEmail, .validateUser, .updateUser]⟩,
    ⟨.DELETE, .email, [.authMiddleware, .validateUserEmail, .deleteUser]⟩,
    ⟨.OPTIONS, .email, [.authMiddleware, .validateUserEmail, .getUserOptions]⟩ ]

/-- Express matches a route path without regard to letter case; a `:email` parameter is one
non-empty segment.  The result is `req.params.email` of a match. -/
def Pattern.matchPath (pat : Pattern) (path : List String) : Option (Option String) :=
  match pat, path with
  | .root, [] => some none
  | .search, [seg] => if seg.data.map Char.toLower = "search".data then some none else none
  | .email, [seg] => if seg.length = 0 then none else some (some seg)
  | _, _ => none

/-- A `GET` route also serves `HEAD`. -/
def Route.handles (r : Route) (m : Method) : Bool :=
  r.method == m || (m == .HEAD && r.method == .GET)

/-- The first route of the table that matches the method and the path, with the request as the
route sees it. -/
def dispatch (table : List Route) (req : Request) : Option (Route × Request) :=
  match table with
  | [] => none
  | r :: rest =>
    match r.handles req.method, r.pattern.matchPath req.path with
    | true, some params => some (r, req.withParams params)
    | _, _ => dispatch rest req

/-! ## `src/index.js` -/

/-- The error built by the middleware behind the router, for requests no route answered. -/
def notFoundError : JsError :=
  newError "Не знайдено" 404

/-- The response to a request the router gave to `route`: the response a stage sent, or the
one `errorHandler` makes of the forwarded error.  A chain that ends with `next()` leaves
the request to the not-found middleware. -/
def serve (P : Platform) (env : StoreEnv) (route : Route) (req : Request) (store : Store) :
    Response × Store :=
  let r := runChain P env route.stages req store
  match r.outcome with
  | .sent res => (res, r.store)
  | .nextErr err => (errorHandler err, r.store)
  | .next _ => (errorHandler notFoundError, r.store)

/-- The application below the `/users` mount point: the router, the not-found middleware and
`errorHandler`. -/
def app (P : Platform) (env : StoreEnv) (req : Request) (store : Store) : Response × Store :=
  match dispatch usersRouter req with
  | none => (errorHandler notFoundError, store)
  | some (route, req1) => serve P env route req1 store

/-! ## A reference platform

A concrete instance of the collaborators for evaluating the pipeline on examples.  It is
deliberately narrow: it agrees with the real libraries on the inputs it accepts, which are
the ones the examples below use. -/

/-- Accepts `local@label.tld` with an alphanumeric ASCII local part and label and an
alphabetic top-level domain of two letters or more: addresses validator.js accepts too. -/
def refIsEmail (s : String) : Bool :=
  let loc := s.data.takeWhile (· != '@')
  match s.data.dropWhile (· != '@') with
  | '@' :: dom =>
    let label := dom.takeWhile (· != '.')
    match dom.dropWhile (· != '.') with
    | '.' :: tld =>
      loc.length != 0 && loc.length ≤ 64 && loc.all Char.isAlphanum &&
      label.length != 0 && label.length ≤ 63 && label.all Char.isAlphanum &&
      2 ≤ tld.length && tld.length ≤ 63 && tld.all Char.isAlpha
    | _ => false
  | _ => false

/-- Lowercases the ASCII letters; `toLowerCase` does the same on ASCII strings. -/
def refToLowerCase (s : String) : String :=
  ⟨s.data.map Char.toLower⟩

/-- One pattern character against one subject character, ignoring ASCII case; `.` matches any
character but a line feed. -/
def refCharMatches (p c : Char) : Bool :=
  if p = '.' then c != '\n' else p.toLower == c.toLower

/-- The pattern matches a beginning of the subject. -/
def refMatchHere : List Char → List Char → Bool
  | [], _ => true
  | _ :: _, [] => false
  | p :: ps, c :: cs => refCharMatches p c && refMatchHere ps cs

/-- The pattern matches somewhere in the subject. -/
def refSearch (pat : List Char) : List Char → Bool
  | [] => refMatchHere pat []
  | c :: cs => refMatchHere pat (c :: cs) || refSearch pat cs

/-- Regular expressions made of ASCII letters, digits, blanks, `@` and the wildcard `.`,
searched without regard to case.  A missing pattern is rejected, as the database does; so is,
in this instance only, every pattern outside the fragment. -/
def refRegexI : Option String → Except StoreError (String → Bool)
  | none => .error ⟨"MongoError", "$regex has to be a string", some 2⟩
  | some q =>
    if q.data.all fun c => c.isAlphanum || c == ' ' || c == '@' || c == '.' then
      .ok fun s => refSearch q.data s.data
    else .error ⟨"MongoError", "Regular expression is invalid", some 51091⟩

def refPlatform : Platform :=
  { isEmail := refIsEmail, toLowerCase := refToLowerCase, regexI := refRegexI }

/-- An environment in which the store call does not fail; the store assigns identifier `id`
at instant `now`. -/
def quiet (id now : Nat) : StoreEnv :=
  { fault := none, newId := id, now := now }

/-- A request with the given method and path and nothing else. -/
def bare (method : Method) (path : List String) : Request :=
  { method := method, path := path, headers_auth_token := none, query_search := none,
    body_name := none, body_email := none, params_email := none }

/-- The request `PUT /users/seg` with the right token and the body `name`, `email`. -/
def putRequest (seg : String) (name email : Option String) : Request :=
  { method := .PUT, path := [seg], headers_auth_token := some secretToken,
    query_search := none, body_name := name, body_email := email, params_email := none }

/-- The request `POST /users` with the right token and the body `name`, `email`. -/
def postRequest (name email : Option String) : Request :=
  { method := .POST, path := [], headers_auth_token := some secretToken,
    query_search := none, body_name := name, body_email := email, params_email := none }

/-- The request `GET /users/seg` with the right token. -/
def getRequest (seg : String) : Request :=
  { method := .GET, path := [seg], headers_auth_token := some secretToken,
    query_search := none, body_name := none, body_email := none, params_email := none }

/-- The request `GET /users/search?search=q` with the right token. -/
def searchRequest (q : String) : Request :=
  { method := .GET, path := ["search"], headers_auth_token := some secretToken,
    query_search := some q, body_name := none, body_email := none, params_email := none }

/-- The request `GET /users` with the right token. -/
def listRequest : Request :=
  { method := .GET, path := [], headers_auth_token := some secretToken,
    query_search := none, body_name := none, body_email := none, params_email := none }

/-! ## Readings of the specification -/

/-- The list `pat` occurs in the subject as a contiguous block. -/
def occursIn (pat : List Char) : List Char → Bool
  | [] => pat.isPrefixOf []
  | c :: cs => pat.isPrefixOf (c :: cs) || occursIn pat cs

/-- The search rule in the words of the specification: the email equals `q`, or the name
contains `q` as a substring without regard to case. -/
def specSearchMatch (P : Platform) (q : String) (u : User) : Bool :=
  u.email == q || occursIn (P.toLowerCase q).data (P.toLowerCase u.name).data

/-- The condition of the body validator in the words of the specification, the length
being the number of characters of the string: the name is non-empty and 2 to 100 characters
long, the email is non-empty and a valid address. -/
def specBodyAccepted (P : Platform) (req : Request) : Bool :=
  (fieldString req.body_name).length != 0 && 2 ≤ (fieldString req.body_name).length &&
  (fieldString req.body_name).length ≤ 100 && (fieldString req.body_email).length != 0 &&
  P.isEmail (fieldString req.body_email)

/-- The number of invalid fields among name and email, in the words of the specification: a
field is invalid when one of its checks fails. -/
def invalidFieldCount (P : Platform) (req : Request) : Nat :=
  (if bodyNameChain req = [] then 0 else 1) + (if bodyEmailChain P req = [] then 0 else 1)

/-- The store invariant in the words of the specification, for one document: the name is
non-empty after trimming and has 2 to 100 characters, the email is non-empty after
trimming. -/
def specRecordOk (u : User) : Bool :=
  (jsTrim u.name).length != 0 && isLength (jsTrim u.name) 2 100 && (jsTrim u.email).length != 0

/-! ## Lemmas on the stages -/

theorem authMiddleware_reject (req : Request) (h : req.headers_auth_token ≠ some secretToken) :
    authMiddleware req = .sent ⟨401, [], .errorEnvelope 401 "Необхідна авторизація"⟩ := by
  unfold authMiddleware
  cases htok : req.headers_auth_token with
  | none => rfl
  | some t =>
    have ht : t ≠ secretToken := fun heq => h (by rw [htok, heq])
    simp [ht]

theorem authMiddleware_pass (req : Request) (h : req.headers_auth_token = some secretToken) :
    authMiddleware req = .next req := by
  unfold authMiddleware
  rw [h]
  have hlen : secretToken.length ≠ 0 := by decide
  simp [hlen]

theorem runChain_auth_reject (P : Platform) (env : StoreEnv) (rest : List Stage) (req : Request)
    (store : Store) (h : req.headers_auth_token ≠ some secretToken) :
    runChain P env (.authMiddleware :: rest) req store =
      ⟨.sent ⟨401, [], .errorEnvelope 401 "Необхідна авторизація"⟩, store, [.authMiddleware]⟩ := by
  simp [runChain, Stage.run, authMiddleware_reject req h]

theorem runChain_auth_pass (P : Platform) (env : StoreEnv) (rest : List Stage) (req : Request)
    (store : Store) (h : req.headers_auth_token = some secretToken) :
    runChain P env (.authMiddleware :: rest) req store =
      ⟨(runChain P env rest req store).outcome, (runChain P env rest req store).store,
        .authMiddleware :: (runChain P env rest req store).ran⟩ := by
  simp [runChain, Stage.run, authMiddleware_pass req h]

theorem runChain_next (P : Platform) (env : StoreEnv) (s : Stage) (rest : List Stage)
    (req req1 : Request) (store store1 : Store)
    (h : s.run P env req store = (.next req1, store1)) :
    runChain P env (s :: rest) req store =
      ⟨(runChain P env rest req1 store1).outcome, (runChain P env rest req1 store1).store,
        s :: (runChain P env rest req1 store1).ran⟩ := by
  simp [runChain, h]

theorem runChain_sent (P : Platform) (env : StoreEnv) (s : Stage) (rest : List Stage)
    (req : Request) (store store1 : Store) (res : Response)
    (h : s.run P env req store = (.sent res, store1)) :
    runChain P env (s :: rest) req store = ⟨.sent res, store1, [s]⟩ := by
  simp [runChain, h]

theorem runChain_nextErr (P : Platform) (env : StoreEnv) (s : Stage) (rest : List Stage)
    (req : Request) (store store1 : Store) (err : JsError)
    (h : s.run P env req store = (.nextErr err, store1)) :
    runChain P env (s :: rest) req store = ⟨.nextErr err, store1, [s]⟩ := by
  simp [runChain, h]

/-- The method and path of the seven routes of the table. -/
theorem usersRouter_routes :
    usersRouter.map (fun r => (r.method, r.pattern)) =
      [(.GET, .root), (.GET, .search), (.GET, .email), (.POST, .root), (.PUT, .email),
        (.DELETE, .email), (.OPTIONS, .email)] := by
  decide

/-- Every route of the table starts with `authMiddleware`. -/
theorem usersRouter_starts_with_auth (route : Route) (h : route ∈ usersRouter) :
    ∃ rest, route.stages = .authMiddleware :: rest := by
  simp only [usersRouter, List.mem_cons, List.mem_singleton, List.not_mem_nil, or_false] at h
  rcases h with h | h | h | h | h | h | h <;> subst h <;> exact ⟨_, rfl⟩

/-- The router hands a route the request it received, with `params.email` filled in. -/
theorem dispatch_spec (table : List Route) (req req1 : Request) (route : Route)
    (h : dispatch table req = some (route, req1)) :
    route ∈ table ∧ ∃ params, req1 = req.withParams params := by
  induction table with
  | nil => simp [dispatch] at h
  | cons r rest ih =>
    unfold dispatch at h
    split at h
    · simp only [Option.some.injEq, Prod.mk.injEq] at h
      exact ⟨by simp [h.1], _, h.2.symm⟩
    · have := ih h
      exact ⟨List.mem_cons_of_mem _ this.1, this.2⟩

/-! ## Authentication -/

/-- C1: for every route of the users routing table and every request, a missing or wrong
`Auth-Token` header is answered with 401 and the envelope `error: status 401, message`, only
`authMiddleware` has run and the collection is unchanged, also seen through `app`; with the
right header `authMiddleware` sends nothing, calls `next()` with the request it received, and
the rest of the route runs on that same request. -/
theorem C1_authMiddleware (P : Platform) (env : StoreEnv) (route : Route)
    (hroute : route ∈ usersRouter) (req : Request) (store : Store) :
    (req.headers_auth_token ≠ some secretToken →
      runChain P env route.stages req store =
        ⟨.sent ⟨401, [], .errorEnvelope 401 "Необхідна авторизація"⟩, store, [.authMiddleware]⟩ ∧
      ∀ req0, dispatch usersRouter req0 = some (route, req) →
        app P env req0 store =
          (⟨401, [], .errorEnvelope 401 "Необхідна авторизація"⟩, store)) ∧
    (req.headers_auth_token = some secretToken →
      authMiddleware req = .next req ∧
      ∃ rest, route.stages = .authMiddleware :: rest ∧
        runChain P env route.stages req store =
          ⟨(runChain P env rest req store).outcome, (runChain P env rest req store).store,
            .authMiddleware :: (runChain P env rest req store).ran⟩) := by
  obtain ⟨rest, hrest⟩ := usersRouter_starts_with_auth route hroute
  refine ⟨fun hbad => ?_, fun hgood => ?_⟩
  · have hchain := runChain_auth_reject P env rest req store hbad
    refine ⟨by rw [hrest]; exact hchain, fun req0 hd => ?_⟩
    unfold app serve
    rw [hd]
    simp only [hrest, hchain]
  · exact ⟨authMiddleware_pass req hgood, rest, hrest,
      by rw [hrest]; exact runChain_auth_pass P env rest req store hgood⟩

/-- C1 on `POST /users` without a token: nothing is created. -/
theorem C1_authMiddleware_witness :
    runChain refPlatform (quiet 7 1) [.authMiddleware, .validateUser, .createUser]
        { bare .POST [] with body_name := some "Ada", body_email := some "ada@x.com" } [] =
      ⟨.sent ⟨401, [], .errorEnvelope 401 "Необхідна авторизація"⟩, [], [.authMiddleware]⟩ :=
  ((C1_authMiddleware refPlatform (quiet 7 1)
    ⟨.POST, .root, [.authMiddleware, .validateUser, .createUser]⟩ (by decide) { bare .POST [] with body_name := some "Ada", body_email := some "ada@x.com" } []).1
    (by decide)).1

/-! ## The error normalizer -/

theorem sendJson_error_status (statusCode : Nat) (body : Body) (hlow : 400 ≤ statusCode)
    (hhigh : statusCode ≤ 599) : sendJson statusCode body = ⟨statusCode, [], body⟩ := by
  unfold sendJson
  rw [if_neg (by omega), if_neg (by omega)]

/-- What `errorHandler` answers to an error that carries no status or an error status. -/
theorem errorHandler_eq (err : JsError) (hstatus : carriesErrorStatus err = true) :
    errorHandler err =
      ⟨orNum err.status 500, [],
        .errorEnvelope (orNum err.status 500) (orStr err.message "Внутрішня помилка сервера")⟩ := by
  unfold errorHandler
  unfold carriesErrorStatus at hstatus
  cases hs : err.status with
  | none => exact sendJson_error_status 500 _ (by decide) (by decide)
  | some s =>
    rw [hs] at hstatus
    simp only [Bool.and_eq_true, decide_eq_true_eq] at hstatus
    have h0 : s ≠ 0 := by omega
    simp only [orNum, h0, if_false]
    exact sendJson_error_status s _ hstatus.1 hstatus.2

theorem errorHandler_newError (message : String) (status : Nat) (hlow : 400 ≤ status)
    (hhigh : status ≤ 599) :
    errorHandler (newError message status) =
      ⟨status, [], .errorEnvelope status (orStr message "Внутрішня помилка сервера")⟩ := by
  have h0 : status ≠ 0 := by omega
  have h := errorHandler_eq (newError message status)
    (by simp [carriesErrorStatus, newError, hlow, hhigh])
  simpa [newError, orNum, h0] using h

theorem errorHandler_thrown (e : StoreError) :
    errorHandler e.thrown =
      ⟨500, [], .errorEnvelope 500 (orStr e.message "Внутрішня помилка сервера")⟩ :=
  errorHandler_eq e.thrown rfl

/-- The errors a stage hands to `next(err)` carry no status (a store error forwarded as it
is) or the status 400 or 404. -/
theorem stage_error_status (P : Platform) (env : StoreEnv) (s : Stage) (req : Request)
    (store : Store) (err : JsError) (h : (s.run P env req store).1 = .nextErr err) :
    err.status = none ∨ err.status = some 400 ∨ err.status = some 404 := by
  have htranslate : ∀ (m : String) (e : StoreError),
      (translateStoreError m e.thrown).status = none ∨
        (translateStoreError m e.thrown).status = some 400 := by
    intro m e
    unfold translateStoreError
    split
    · right; rfl
    · split
      · right; rfl
      · left; rfl
  cases s with
  | authMiddleware =>
    simp only [Stage.run, authMiddleware] at h
    split at h
    · cases h
    · split at h <;> cases h
  | validateUserEmail =>
    simp only [Stage.run, validateUserEmail] at h
    split at h <;> cases h
  | validateUser =>
    simp only [Stage.run, validateUser] at h
    split at h <;> cases h
  | getAllUsers =>
    simp only [Stage.run, getAllUsers] at h
    split at h <;> cases h
  | searchUsers =>
    simp only [Stage.run, searchUsers] at h
    split at h
    · split at h
      · cases h; right; right; rfl
      · cases h
    · cases h; left; rfl
  | getUserByEmail =>
    simp only [Stage.run, getUserByEmail] at h
    split at h
    · cases h; right; right; rfl
    · cases h
    · cases h; left; rfl
  | createUser =>
    simp only [Stage.run, createUser] at h
    split at h
    · cases h
    · cases h
      rcases htranslate _ _ with h1 | h1
      · exact Or.inl h1
      · exact Or.inr (Or.inl h1)
  | updateUser =>
    simp only [Stage.run, updateUser] at h
    split at h
    · cases h; right; right; rfl
    · cases h
    · cases h
      rcases htranslate _ _ with h1 | h1
      · exact Or.inl h1
      · exact Or.inr (Or.inl h1)
  | deleteUser =>
    simp only [Stage.run, deleteUser] at h
    split at h
    · cases h; right; right; rfl
    · cases h
    · cases h; left; rfl
  | getUserOptions =>
    simp only [Stage.run, getUserOptions] at h
    cases h

/-- Every error a chain of stages hands to `errorHandler` carries no status or an error
status; so does the error of the not-found middleware. -/
theorem forwarded_carriesErrorStatus (P : Platform) (env : StoreEnv) (stages : List Stage)
    (req : Request) (store : Store) (err : JsError)
    (h : (runChain P env stages req store).outcome = .nextErr err) :
    carriesErrorStatus err = true := by
  induction stages generalizing req store with
  | nil => simp [runChain] at h
  | cons s rest ih =>
    cases hrun : s.run P env req store with
    | mk outcome store1 =>
      cases outcome with
      | next req1 =>
        rw [runChain_next P env s rest req req1 store store1 hrun] at h
        exact ih req1 store1 h
      | sent res =>
        rw [runChain_sent P env s rest req store store1 res hrun] at h
        cases h
      | nextErr e =>
        rw [runChain_nextErr P env s rest req store store1 e hrun] at h
        have he : e = err := by simpa using h
        subst he
        have hkind := stage_error_status P env s req store e (by rw [hrun])
        rcases hkind with h1 | h1 | h1 <;> simp [carriesErrorStatus, h1]

/-- C2: for every error object handed to `errorHandler` that carries no status or an HTTP
error status (400 to 599), as all errors of this application do: the response status is the
error's status when it carries one and 500 otherwise, and the body is the envelope
`error: status, message` whose status is the response status and whose message is the
error's message when it has one (it is not empty) and the generic internal-error text
otherwise. -/
theorem C2_errorHandler (err : JsError) (hstatus : carriesErrorStatus err = true) :
    (∀ s, err.status = some s → (errorHandler err).statusCode = s) ∧
    (err.status = none → (errorHandler err).statusCode = 500) ∧
    (errorHandler err).headers = [] ∧
    (err.message ≠ "" →
      (errorHandler err).body = .errorEnvelope (errorHandler err).statusCode err.message) ∧
    (err.message = "" →
      (errorHandler err).body =
        .errorEnvelope (errorHandler err).statusCode "Внутрішня помилка сервера") := by
  rw [errorHandler_eq err hstatus]
  refine ⟨fun s hs => ?_, fun h => ?_, rfl, fun hm => ?_, fun hm => ?_⟩
  · have hrange : 400 ≤ s ∧ s ≤ 599 := by
      simpa [carriesErrorStatus, hs] using hstatus
    have h0 : s ≠ 0 := by omega
    simp [orNum, hs, h0]
  · simp [orNum, h]
  · have hlen : err.message.length ≠ 0 := by
      intro h
      exact hm (String.ext (List.length_eq_zero.mp h))
    simp [orStr, hlen]
  · simp [orStr, hm]

/-- C2 on the error `getUserByEmail` forwards for a missing record, and on a store error
without status or message. -/
theorem C2_errorHandler_witness :
    errorHandler (newError "Користувача не знайдено" 404) =
      ⟨404, [], .errorEnvelope 404 "Користувача не знайдено"⟩ ∧
    (errorHandler (JsError.mk none "" none "MongoNetworkError")).statusCode = 500 ∧
    (errorHandler (JsError.mk none "" none "MongoNetworkError")).body =
      .errorEnvelope 500 "Внутрішня помилка сервера" := by
  have h1 := C2_errorHandler (newError "Користувача не знайдено" 404) (by decide)
  have h2 := C2_errorHandler (JsError.mk none "" none "MongoNetworkError") (by decide)
  refine ⟨by decide, h2.2.1 rfl, ?_⟩
  have h3 := h2.2.2.2.2 rfl
  rw [h2.2.1 rfl] at h3
  exact h3

/-! ## Store errors in `createUser` and `updateUser` -/

theorem translateStoreError_spec (duplicateMessage : String) (e : StoreError) :
    (e.code = some 11000 →
      translateStoreError duplicateMessage e.thrown = newError duplicateMessage 400) ∧
    (e.code ≠ some 11000 → e.name = "ValidationError" →
      translateStoreError duplicateMessage e.thrown = newError e.message 400) ∧
    (e.code ≠ some 11000 → e.name ≠ "ValidationError" →
      translateStoreError duplicateMessage e.thrown = e.thrown) := by
  refine ⟨fun h => ?_, fun h hn => ?_, fun h hn => ?_⟩
  · simp [translateStoreError, StoreError.thrown, h]
  · simp [translateStoreError, StoreError.thrown, h, hn]
  · simp [translateStoreError, StoreError.thrown, h, hn]

theorem errorHandler_translated_status (duplicateMessage : String) (e : StoreError) :
    (errorHandler (translateStoreError duplicateMessage e.thrown)).statusCode =
      if e.code = some 11000 ∨ e.name = "ValidationError" then 400 else 500 := by
  by_cases h : e.code = some 11000
  · simp [translateStoreError, StoreError.thrown, h, errorHandler_newError]
  · by_cases hn : e.name = "ValidationError"
    · simp [translateStoreError, StoreError.thrown, h, hn, errorHandler_newError]
    · have hsame : translateStoreError duplicateMessage e.thrown = e.thrown := by
        simp [translateStoreError, StoreError.thrown, h, hn]
      rw [hsame, errorHandler_thrown]
      simp [h, hn]

/-- C3: when the store call of `createUser` (`save`) or of `updateUser` (`findOneAndUpdate`)
raises an error `e`, the controller sends nothing and forwards an error, the collection being
as before: for code 11000 an error with status 400 and the fixed duplicate message of the
operation; otherwise, for the name `ValidationError`, an error with status 400 and the message
of `e`; otherwise `e` itself, which `errorHandler` answers with 500.  The response is 400 or
500, never a success. -/
theorem C3_store_error_translation (P : Platform) (env : StoreEnv) (req : Request)
    (store : Store) (e : StoreError) (duplicateMessage : String) (result : Outcome × Store)
    (hraised :
      (User.save P env req.body_name req.body_email store = .error e ∧
        duplicateMessage = "Користувач з таким email вже існує" ∧
        result = createUser P env req store) ∨
      (User.findOneAndUpdate P env req.params_email req.body_name req.body_email store =
          .error e ∧
        duplicateMessage = "Такий email вже використовується" ∧
        result = updateUser P env req store)) :
    ∃ forwarded, result = (.nextErr forwarded, store) ∧
      (e.code = some 11000 → forwarded = newError duplicateMessage 400) ∧
      (e.code ≠ some 11000 → e.name = "ValidationError" →
        forwarded = newError e.message 400) ∧
      (e.code ≠ some 11000 → e.name ≠ "ValidationError" →
        forwarded = e.thrown ∧ (errorHandler forwarded).statusCode = 500) ∧
      ((errorHandler forwarded).statusCode = 400 ∨ (errorHandler forwarded).statusCode = 500) := by
  have hspec := translateStoreError_spec duplicateMessage e
  have hstatus := errorHandler_translated_status duplicateMessage e
  refine ⟨translateStoreError duplicateMessage e.thrown, ?_, hspec.1, hspec.2.1, ?_, ?_⟩
  · rcases hraised with ⟨h, hm, hr⟩ | ⟨h, hm, hr⟩
    · rw [hr, hm]; simp [createUser, h]
    · rw [hr, hm]; simp [updateUser, h]
  · intro h hn
    refine ⟨hspec.2.2 h hn, ?_⟩
    rw [hstatus]; simp [h, hn]
  · rw [hstatus]
    by_cases h : e.code = some 11000 ∨ e.name = "ValidationError" <;> simp [h]

/-- C3 on a lost connection during `createUser`: the error is forwarded as it is and answered
with 500. -/
theorem C3_store_error_translation_witness :
    ∃ forwarded,
      createUser refPlatform ⟨some ⟨"MongoNetworkError", "connection closed", none⟩, 1, 1⟩
          { bare .POST [] with body_name := some "Ada", body_email := some "ada@x.com" } [] =
        (.nextErr forwarded, []) ∧
      forwarded = (StoreError.mk "MongoNetworkError" "connection closed" none).thrown ∧
      (errorHandler forwarded).statusCode = 500 := by
  obtain ⟨forwarded, hres, _, _, hother, _⟩ :=
    C3_store_error_translation refPlatform
      ⟨some ⟨"MongoNetworkError", "connection closed", none⟩, 1, 1⟩
      { bare .POST [] with body_name := some "Ada", body_email := some "ada@x.com" } []
      ⟨"MongoNetworkError", "connection closed", none⟩ "Користувач з таким email вже існує" _
      (Or.inl ⟨rfl, rfl, rfl⟩)
  exact ⟨forwarded, hres, (hother (by decide) (by decide)).1, (hother (by decide) (by decide)).2⟩

/-! ## The body validator -/

theorem validateUser_next_iff (P : Platform) (req : Request) :
    validateUser P req = .next req ↔
      bodyNameChain req = [] ∧ bodyEmailChain P req = [] := by
  unfold validateUser
  by_cases h : bodyNameChain req ++ bodyEmailChain P req = []
  · simp [h, List.append_eq_nil.mp h]
  · have h2 : ¬ (bodyNameChain req = [] ∧ bodyEmailChain P req = []) := by
      rintro ⟨h1, h2⟩; exact h (by rw [h1, h2]; rfl)
    simp [h, h2]

theorem isLength_of_length_zero (str : String) (min max : Nat) (hmin : 0 < min)
    (h : str.length = 0) : isLength str min max = false := by
  have hv : validatorLength str = 0 := by simp [validatorLength, h]
  simp [isLength, hv]
  omega

theorem bodyNameChain_nil_iff (req : Request) :
    bodyNameChain req = [] ↔
      (fieldString req.body_name).length ≠ 0 ∧
        2 ≤ validatorLength (fieldString req.body_name) ∧
        validatorLength (fieldString req.body_name) ≤ 100 := by
  unfold bodyNameChain isLength
  by_cases h0 : (fieldString req.body_name).length = 0
  · simp [h0]
  · by_cases h2 : 2 ≤ validatorLength (fieldString req.body_name) <;>
      by_cases h3 : validatorLength (fieldString req.body_name) ≤ 100 <;> simp [h0, h2, h3]

theorem bodyEmailChain_nil_iff (P : Platform) (req : Request) :
    bodyEmailChain P req = [] ↔
      (fieldString req.body_email).length ≠ 0 ∧ P.isEmail (fieldString req.body_email) = true := by
  unfold bodyEmailChain
  by_cases h0 : (fieldString req.body_email).length = 0 <;>
    by_cases h1 : P.isEmail (fieldString req.body_email) = true <;> simp [h0, h1]

/-- C4, as stated, fails when length is the number of characters of the string: the name
made of `a` and the variation selector U+FE0F is non-empty and two characters long, the
email is a valid address, and `validateUser` answers 400 (name too short); a name of a
hundred letters and that selector is 101 characters long and passes. -/
theorem C4_variation_selector_counterexample :
    specBodyAccepted refPlatform (postRequest (some "a\uFE0F") (some "ada@x.com")) = true ∧
    validateUser refPlatform (postRequest (some "a\uFE0F") (some "ada@x.com")) =
      .sent ⟨400, [], .errors
        [⟨some "a\uFE0F", "Довжина імені має бути від 2 до 100 символів", "name", "body"⟩]⟩ ∧
    specBodyAccepted refPlatform
      (postRequest (some ⟨List.replicate 100 'a' ++ ['\uFE0F']⟩) (some "ada@x.com")) = false ∧
    validateUser refPlatform
        (postRequest (some ⟨List.replicate 100 'a' ++ ['\uFE0F']⟩) (some "ada@x.com")) =
      .next (postRequest (some ⟨List.replicate 100 'a' ++ ['\uFE0F']⟩) (some "ada@x.com")) := by
  decide

/-- C4, amended: `validateUser` calls `next()` with the request it received exactly when the
name is non-empty with a length from 2 to 100, the variation selectors U+FE0E and U+FE0F not
counted, and the email is non-empty and accepted by `isEmail`; otherwise it answers 400 with
a body `errors` that holds an entry for each failed check (name required, name length, email
required, email format) and nothing else, and in a chain no later stage runs and the
collection is unchanged. -/
theorem C4_validateUser (P : Platform) (env : StoreEnv) (req : Request) (store : Store)
    (rest : List Stage) :
    (validateUser P req = .next req ↔
      ((fieldString req.body_name).length ≠ 0 ∧
        2 ≤ validatorLength (fieldString req.body_name) ∧
        validatorLength (fieldString req.body_name) ≤ 100) ∧
      ((fieldString req.body_email).length ≠ 0 ∧
        P.isEmail (fieldString req.body_email) = true)) ∧
    (validateUser P req ≠ .next req →
      ∃ errors, validateUser P req = .sent ⟨400, [], .errors errors⟩ ∧ errors ≠ [] ∧
        (∀ entry, entry ∈ errors ↔
          ((fieldString req.body_name).length = 0 ∧
            entry = ⟨req.body_name, "Ім\x27я користувача є обов\x27язковим", "name", "body"⟩) ∨
          (isLength (fieldString req.body_name) 2 100 = false ∧
            entry = ⟨req.body_name, "Довжина імені має бути від 2 до 100 символів", "name",
              "body"⟩) ∨
          ((fieldString req.body_email).length = 0 ∧
            entry = ⟨req.body_email, "Email є обов\x27язковим", "email", "body"⟩) ∨
          (P.isEmail (fieldString req.body_email) = false ∧
            entry = ⟨req.body_email, "Введіть коректний email", "email", "body"⟩)) ∧
        runChain P env (.validateUser :: rest) req store =
          ⟨.sent ⟨400, [], .errors errors⟩, store, [.validateUser]⟩) := by
  refine ⟨?_, fun hne => ?_⟩
  · rw [validateUser_next_iff, bodyNameChain_nil_iff, bodyEmailChain_nil_iff]
  · have hsent : validateUser P req =
        .sent ⟨400, [], .errors (bodyNameChain req ++ bodyEmailChain P req)⟩ := by
      unfold validateUser at hne ⊢
      by_cases h : (bodyNameChain req ++ bodyEmailChain P req).isEmpty = true
      · simp [h] at hne
      · simp [h]
    have hnil : bodyNameChain req ++ bodyEmailChain P req ≠ [] := by
      intro h
      apply hne
      unfold validateUser
      simp [h]
    refine ⟨_, hsent, hnil, fun entry => ?_, ?_⟩
    · unfold bodyNameChain bodyEmailChain
      by_cases h0 : (fieldString req.body_name).length = 0 <;>
        by_cases h1 : isLength (fieldString req.body_name) 2 100 = true <;>
        by_cases h2 : (fieldString req.body_email).length = 0 <;>
        by_cases h3 : P.isEmail (fieldString req.body_email) = true <;>
        simp [h0, h1, h2, h3]
    · simp [runChain, Stage.run, hsent]

/-! ## Update of a missing record -/

theorem dispatch_put (seg : String) (name email : Option String) (hseg : seg.length ≠ 0) :
    dispatch usersRouter (putRequest seg name email) =
      some (⟨.PUT, .email,
          [.authMiddleware, .validateUserEmail, .validateUser, .updateUser]⟩,
        (putRequest seg name email).withParams (some seg)) := by
  simp [dispatch, usersRouter, Route.handles, Pattern.matchPath, putRequest, hseg]

theorem validateUserEmail_pass (P : Platform) (req : Request) (seg : String)
    (hparam : req.params_email = some seg) (hvalid : P.isEmail seg = true) :
    validateUserEmail P req = .next req := by
  simp [validateUserEmail, paramEmailChain, fieldString, hparam, hvalid]

/-- The body validator either passes the request on or answers 400 with a non-empty list. -/
theorem validateUser_cases (P : Platform) (req : Request) :
    validateUser P req = .next req ∨
      (bodyNameChain req ++ bodyEmailChain P req ≠ [] ∧
        validateUser P req =
          .sent ⟨400, [], .errors (bodyNameChain req ++ bodyEmailChain P req)⟩) := by
  unfold validateUser
  by_cases h : bodyNameChain req ++ bodyEmailChain P req = []
  · left; simp [h]
  · right; exact ⟨h, by simp [h]⟩

/-- The body validator reads the body only. -/
theorem validateUser_withParams (P : Platform) (req : Request) (params : Option String) :
    (validateUser P req = .next req →
      validateUser P (req.withParams params) = .next (req.withParams params)) ∧
    (∀ res, validateUser P req = .sent res →
      validateUser P (req.withParams params) = .sent res) := by
  have hname : bodyNameChain (req.withParams params) = bodyNameChain req := rfl
  have hemail : bodyEmailChain P (req.withParams params) = bodyEmailChain P req := rfl
  unfold validateUser
  simp only [hname, hemail]
  by_cases h : (bodyNameChain req ++ bodyEmailChain P req).isEmpty = true <;> simp [h]

theorem findOneAndUpdate_miss (P : Platform) (env : StoreEnv) (filter name email : Option String)
    (store : Store) (hquiet : env.fault = none)
    (hmiss : ∀ u ∈ store, castEmail P filter ≠ some u.email) :
    User.findOneAndUpdate P env filter name email store = .ok (none, store) := by
  have hfind : store.find? (fun u => castEmail P filter == some u.email) = none := by
    rw [List.find?_eq_none]
    intro u hu
    simpa using hmiss u hu
  simp [User.findOneAndUpdate, hquiet, hfind]

/-- What `updateUser` does when the filter selects no document: it sends nothing and leaves
the collection as it was. -/
theorem updateUser_miss (P : Platform) (env : StoreEnv) (req : Request) (store : Store)
    (hmiss : ∀ u ∈ store, castEmail P req.params_email ≠ some u.email) :
    ∃ err, updateUser P env req store = (.nextErr err, store) ∧
      (env.fault = none → err = newError "Користувача не знайдено" 404) := by
  cases hf : env.fault with
  | some e =>
    exact ⟨translateStoreError "Такий email вже використовується" e.thrown,
      by simp [updateUser, User.findOneAndUpdate, hf], by simp⟩
  | none =>
    exact ⟨newError "Користувача не знайдено" 404,
      by simp [updateUser, findOneAndUpdate_miss P env _ _ _ store hf hmiss], fun _ => rfl⟩

/-- C5, as stated, fails: with the right token, a valid path email and an empty collection, a
body without a name is answered by the body validator with 400, not with 404. -/
theorem C5_invalid_body_counterexample :
    refIsEmail "a@b.co" = true ∧
    (app refPlatform (quiet 1 1) (putRequest "a@b.co" none (some "a@b.co")) []).1.statusCode =
      400 := by
  decide

/-- C5, amended: for every collection, every path email that is a valid address and
selects no stored document, and every request body sent with the right token: the
collection after `PUT /users/email` equals the collection before; when the body validator
accepts the body and the store call does not fail the response is 404 with the envelope of
the not-found error; when the body validator rejects the body the response is 400. -/
theorem C5_update_missing (P : Platform) (env : StoreEnv) (store : Store) (seg : String)
    (name email : Option String) (hseg : seg.length ≠ 0) (hvalid : P.isEmail seg = true)
    (hmiss : ∀ u ∈ store, castEmail P (some seg) ≠ some u.email) :
    (app P env (putRequest seg name email) store).2 = store ∧
    (validateUser P (putRequest seg name email) = .next (putRequest seg name email) →
      env.fault = none →
      app P env (putRequest seg name email) store =
        (⟨404, [], .errorEnvelope 404 "Користувача не знайдено"⟩, store)) ∧
    (validateUser P (putRequest seg name email) ≠ .next (putRequest seg name email) →
      (app P env (putRequest seg name email) store).1.statusCode = 400) := by
  have hauth : ((putRequest seg name email).withParams (some seg)).headers_auth_token =
      some secretToken := rfl
  have hpath := validateUserEmail_pass P ((putRequest seg name email).withParams (some seg))
    seg rfl hvalid
  have hbody := validateUser_withParams P (putRequest seg name email) (some seg)
  obtain ⟨err, hupd, herr⟩ := updateUser_miss P env
    ((putRequest seg name email).withParams (some seg)) store hmiss
  have happ : app P env (putRequest seg name email) store =
      serve P env ⟨.PUT, .email,
          [.authMiddleware, .validateUserEmail, .validateUser, .updateUser]⟩
        ((putRequest seg name email).withParams (some seg)) store := by
    unfold app
    rw [dispatch_put seg name email hseg]
  have hchain1 := runChain_auth_pass P env [.validateUserEmail, .validateUser, .updateUser]
    ((putRequest seg name email).withParams (some seg)) store hauth
  have hchain2 := runChain_next P env .validateUserEmail [.validateUser, .updateUser]
    ((putRequest seg name email).withParams (some seg))
    ((putRequest seg name email).withParams (some seg)) store store
    (congrArg (fun o => (o, store)) hpath)
  rcases validateUser_cases P (putRequest seg name email) with haccept | ⟨hne, hreject⟩
  · have hchain3 := runChain_next P env .validateUser [.updateUser]
      ((putRequest seg name email).withParams (some seg)) _ store store
      (congrArg (fun o => (o, store)) (hbody.1 haccept))
    have hchain4 := runChain_nextErr P env .updateUser []
      ((putRequest seg name email).withParams (some seg)) store store err
      hupd
    have hserve : app P env (putRequest seg name email) store = (errorHandler err, store) := by
      rw [happ]
      unfold serve
      simp only [hchain1, hchain2, hchain3, hchain4]
    refine ⟨by rw [hserve], fun _ hquiet => ?_, fun hrej => absurd haccept hrej⟩
    have hmsg : errorHandler (newError "Користувача не знайдено" 404) =
        ⟨404, [], .errorEnvelope 404 "Користувача не знайдено"⟩ := by decide
    rw [hserve, herr hquiet, hmsg]
  · have hchain3 := runChain_sent P env .validateUser [.updateUser]
      ((putRequest seg name email).withParams (some seg)) store store _
      (congrArg (fun o => (o, store)) (hbody.2 _ hreject))
    have hserve : app P env (putRequest seg name email) store =
        (⟨400, [], .errors (bodyNameChain (putRequest seg name email) ++
          bodyEmailChain P (putRequest seg name email))⟩, store) := by
      rw [happ]
      unfold serve
      simp only [hchain1, hchain2, hchain3]
    refine ⟨by rw [hserve], fun haccept => ?_, fun _ => by rw [hserve]⟩
    rw [haccept] at hreject
    cases hreject

/-- C5 on a collection that holds another address. -/
theorem C5_update_missing_witness :
    app refPlatform (quiet 1 1) (putRequest "a@b.co" (some "Ann") (some "ann@b.co"))
        [⟨1, "Bob", "bob@x.com", 0, 0⟩] =
      (⟨404, [], .errorEnvelope 404 "Користувача не знайдено"⟩, [⟨1, "Bob", "bob@x.com", 0, 0⟩]) :=
  (C5_update_missing refPlatform (quiet 1 1) [⟨1, "Bob", "bob@x.com", 0, 0⟩] "a@b.co"
    (some "Ann") (some "ann@b.co") (by decide) (by decide) (by decide)).2.1 (by decide) rfl

/-! ## Create, then get by email -/

theorem jsTrim_of_length_zero (s : String) (h : s.length = 0) : jsTrim s = s := by
  have hs : s = "" := String.ext (List.length_eq_zero.mp h)
  subst hs
  rfl

theorem setTrim_some (s : String) : setTrim (some s) = some (jsTrim s) := by
  by_cases h : s.length = 0
  · simp [setTrim, h, jsTrim_of_length_zero s h]
  · simp [setTrim, h]

theorem castName_some (name : String) : castName (some name) = some (jsTrim name) :=
  setTrim_some name

theorem castEmail_some (P : Platform) (email : String) (h : email.length ≠ 0) :
    castEmail P (some email) = some (jsTrim (P.toLowerCase email)) := by
  simp [castEmail, setLowercase, h, setTrim_some]

theorem dispatch_post (name email : Option String) :
    dispatch usersRouter (postRequest name email) =
      some (⟨.POST, .root, [.authMiddleware, .validateUser, .createUser]⟩,
        postRequest name email) := by
  simp [dispatch, usersRouter, Route.handles, Pattern.matchPath, postRequest,
    Request.withParams]

theorem dispatch_get (seg : String) (hseg : seg.length ≠ 0)
    (hword : seg.data.map Char.toLower ≠ "search".data) :
    dispatch usersRouter (getRequest seg) =
      some (⟨.GET, .email, [.authMiddleware, .validateUserEmail, .getUserByEmail]⟩,
        (getRequest seg).withParams (some seg)) := by
  simp [dispatch, usersRouter, Route.handles, Pattern.matchPath, getRequest, hseg, hword]

theorem save_ok (P : Platform) (id now : Nat) (name email : String) (store : Store)
    (hemail : email.length ≠ 0)
    (hrequired : checkRequired (castName (some name)) = true ∧
      checkRequired (castEmail P (some email)) = true)
    (hfresh : ∀ u ∈ store, castEmail P (some email) ≠ some u.email) :
    User.save P (quiet id now) (some name) (some email) store =
      .ok (⟨id, jsTrim name, jsTrim (P.toLowerCase email), now, now⟩,
        store ++ [⟨id, jsTrim name, jsTrim (P.toLowerCase email), now, now⟩]) := by
  have hany : (store.any fun u => some u.email == castEmail P (some email)) = false := by
    rw [List.any_eq_false]
    intro u hu
    have := Ne.symm (hfresh u hu)
    simpa using this
  unfold User.save
  simp only [requiredFailures, hrequired.1, hrequired.2, if_true, List.append_nil, quiet, hany]
  simp [castName_some, castEmail_some P email hemail]

theorem findOne_appended (P : Platform) (id now : Nat) (email : String) (store : Store)
    (doc : User) (hfresh : ∀ u ∈ store, castEmail P (some email) ≠ some u.email)
    (hdoc : castEmail P (some email) = some doc.email) :
    User.findOne P (quiet id now) (some email) (store ++ [doc]) = .ok (some doc) := by
  have hfind : store.find? (fun u => castEmail P (some email) == some u.email) = none := by
    rw [List.find?_eq_none]
    intro u hu
    simpa using hfresh u hu
  unfold User.findOne
  simp only [quiet]
  rw [List.find?_append, hfind]
  simp [hdoc]

/-- C6, as stated, fails: the body validator accepts a name of three blanks, and `POST` then
answers 400, not 201, because the schema trims the name before it checks `required`; and a
name with blanks around it comes back without them, so not as submitted. -/
theorem C6_blank_name_counterexample :
    validateUser refPlatform (postRequest (some "   ") (some "ada@x.com")) =
      .next (postRequest (some "   ") (some "ada@x.com")) ∧
    (app refPlatform (quiet 1 1) (postRequest (some "   ") (some "ada@x.com")) []).1.statusCode =
      400 ∧
    app refPlatform (quiet 1 1) (postRequest (some " Ada ") (some "ada@x.com")) [] =
      (⟨201, [], .user ⟨1, "Ada", "ada@x.com", 1, 1⟩⟩, [⟨1, "Ada", "ada@x.com", 1, 1⟩]) := by
  decide

/-- C6, amended: for every pair (name, email) that the body validator accepts and that passes
the schema's `required` check after its setters (the name is not blank), and every collection
holding no document with that email as the setters store it: `POST /users` answers 201 with
the document whose name is the submitted name trimmed and whose email is the submitted email
lowercased and trimmed, and appends it; the route `GET /users/:email`, run next with the
same email as path parameter, answers 200 with that very document, and so does `app` on
`GET /users/email` (the router gives the path `search` to another route). -/
theorem C6_create_then_get (P : Platform) (store : Store) (name email : String)
    (id now id2 now2 : Nat)
    (haccept : validateUser P (postRequest (some name) (some email)) =
      .next (postRequest (some name) (some email)))
    (hrequired : checkRequired (castName (some name)) = true ∧
      checkRequired (castEmail P (some email)) = true)
    (hfresh : ∀ u ∈ store, castEmail P (some email) ≠ some u.email) :
    app P (quiet id now) (postRequest (some name) (some email)) store =
      (⟨201, [], .user ⟨id, jsTrim name, jsTrim (P.toLowerCase email), now, now⟩⟩,
        store ++ [⟨id, jsTrim name, jsTrim (P.toLowerCase email), now, now⟩]) ∧
    serve P (quiet id2 now2)
        ⟨.GET, .email, [.authMiddleware, .validateUserEmail, .getUserByEmail]⟩
        ((getRequest email).withParams (some email))
        (store ++ [⟨id, jsTrim name, jsTrim (P.toLowerCase email), now, now⟩]) =
      (⟨200, [], .user ⟨id, jsTrim name, jsTrim (P.toLowerCase email), now, now⟩⟩,
        store ++ [⟨id, jsTrim name, jsTrim (P.toLowerCase email), now, now⟩]) ∧
    (email.data.map Char.toLower ≠ "search".data →
      app P (quiet id2 now2) (getRequest email)
          (store ++ [⟨id, jsTrim name, jsTrim (P.toLowerCase email), now, now⟩]) =
        (⟨200, [], .user ⟨id, jsTrim name, jsTrim (P.toLowerCase email), now, now⟩⟩,
          store ++ [⟨id, jsTrim name, jsTrim (P.toLowerCase email), now, now⟩])) := by
  have hemailOk := (bodyEmailChain_nil_iff P (postRequest (some name) (some email))).mp
    ((validateUser_next_iff P _).mp haccept).2
  have hlen : email.length ≠ 0 := hemailOk.1
  have hvalid : P.isEmail email = true := hemailOk.2
  have hserve : serve P (quiet id2 now2)
      ⟨.GET, .email, [.authMiddleware, .validateUserEmail, .getUserByEmail]⟩
      ((getRequest email).withParams (some email))
      (store ++ [⟨id, jsTrim name, jsTrim (P.toLowerCase email), now, now⟩]) =
      (⟨200, [], .user ⟨id, jsTrim name, jsTrim (P.toLowerCase email), now, now⟩⟩,
        store ++ [⟨id, jsTrim name, jsTrim (P.toLowerCase email), now, now⟩]) := by
    have hdoc : castEmail P (some email) =
        some (User.mk id (jsTrim name) (jsTrim (P.toLowerCase email)) now now).email :=
      castEmail_some P email hlen
    have hfind := findOne_appended P id2 now2 email store
      ⟨id, jsTrim name, jsTrim (P.toLowerCase email), now, now⟩ hfresh hdoc
    have hget : getUserByEmail P (quiet id2 now2) ((getRequest email).withParams (some email))
        (store ++ [⟨id, jsTrim name, jsTrim (P.toLowerCase email), now, now⟩]) =
        (.sent ⟨200, [], .user ⟨id, jsTrim name, jsTrim (P.toLowerCase email), now, now⟩⟩,
          store ++ [⟨id, jsTrim name, jsTrim (P.toLowerCase email), now, now⟩]) := by
      unfold getUserByEmail
      rw [show ((getRequest email).withParams (some email)).params_email = some email from rfl,
        hfind]
      rfl
    have hpath := validateUserEmail_pass P ((getRequest email).withParams (some email)) email
      rfl hvalid
    have hchain1 := runChain_auth_pass P (quiet id2 now2) [.validateUserEmail, .getUserByEmail]
      ((getRequest email).withParams (some email))
      (store ++ [⟨id, jsTrim name, jsTrim (P.toLowerCase email), now, now⟩]) rfl
    have hchain2 := runChain_next P (quiet id2 now2) .validateUserEmail [.getUserByEmail]
      ((getRequest email).withParams (some email)) ((getRequest email).withParams (some email))
      (store ++ [⟨id, jsTrim name, jsTrim (P.toLowerCase email), now, now⟩]) _
      (congrArg (fun o => (o, _)) hpath)
    have hchain3 := runChain_sent P (quiet id2 now2) .getUserByEmail []
      ((getRequest email).withParams (some email)) _ _ _ hget
    unfold serve
    simp only [hchain1, hchain2, hchain3]
  refine ⟨?_, hserve, fun hword => ?_⟩
  · have hsave := save_ok P id now name email store hlen hrequired hfresh
    have hcreate : createUser P (quiet id now) (postRequest (some name) (some email)) store =
        (.sent ⟨201, [], .user ⟨id, jsTrim name, jsTrim (P.toLowerCase email), now, now⟩⟩,
          store ++ [⟨id, jsTrim name, jsTrim (P.toLowerCase email), now, now⟩]) := by
      unfold createUser
      rw [show (postRequest (some name) (some email)).body_name = some name from rfl,
        show (postRequest (some name) (some email)).body_email = some email from rfl, hsave]
      rfl
    have hchain1 := runChain_auth_pass P (quiet id now) [.validateUser, .createUser]
      (postRequest (some name) (some email)) store rfl
    have hchain2 := runChain_next P (quiet id now) .validateUser [.createUser]
      (postRequest (some name) (some email)) (postRequest (some name) (some email)) store store
      (congrArg (fun o => (o, store)) haccept)
    have hchain3 := runChain_sent P (quiet id now) .createUser []
      (postRequest (some name) (some email)) store _ _ hcreate
    unfold app
    rw [dispatch_post]
    unfold serve
    simp only [hchain1, hchain2, hchain3]
  · unfold app
    rw [dispatch_get email hlen hword]
    exact hserve

/-- C6 on the example of the specification: `Ada@X.com` is stored and returned as
`ada@x.com`. -/
theorem C6_create_then_get_witness :
    app refPlatform (quiet 7 3) (postRequest (some "Ada Lovelace") (some "Ada@X.com")) [] =
      (⟨201, [], .user ⟨7, "Ada Lovelace", "ada@x.com", 3, 3⟩⟩,
        [⟨7, "Ada Lovelace", "ada@x.com", 3, 3⟩]) ∧
    app refPlatform (quiet 8 4) (getRequest "Ada@X.com")
        [⟨7, "Ada Lovelace", "ada@x.com", 3, 3⟩] =
      (⟨200, [], .user ⟨7, "Ada Lovelace", "ada@x.com", 3, 3⟩⟩,
        [⟨7, "Ada Lovelace", "ada@x.com", 3, 3⟩]) :=
  ⟨(C6_create_then_get refPlatform [] "Ada Lovelace" "Ada@X.com" 7 3 8 4 (by decide)
      (by decide) (by decide)).1,
    (C6_create_then_get refPlatform [] "Ada Lovelace" "Ada@X.com" 7 3 8 4 (by decide)
      (by decide) (by decide)).2.2 (by decide)⟩

/-! ## Search -/

/-- C7, as stated, fails: the query `.` selects a document named `Bob` whose email is not `.`
and whose name does not contain a dot, because the name is matched against the query as a
regular expression; and the query `BOB@X.COM` selects the document with the email
`bob@x.com`, because the filter value goes through the setters of the path. -/
theorem C7_regex_counterexample :
    searchUsers refPlatform (quiet 1 1) (searchRequest ".") [⟨1, "Bob", "bob@x.com", 0, 0⟩] =
      (.sent ⟨200, [], .users [⟨1, "Bob", "bob@x.com", 0, 0⟩]⟩,
        [⟨1, "Bob", "bob@x.com", 0, 0⟩]) ∧
    specSearchMatch refPlatform "." ⟨1, "Bob", "bob@x.com", 0, 0⟩ = false ∧
    searchUsers refPlatform (quiet 1 1) (searchRequest "BOB@X.COM")
        [⟨1, "Bob", "bob@x.com", 0, 0⟩] =
      (.sent ⟨200, [], .users [⟨1, "Bob", "bob@x.com", 0, 0⟩]⟩,
        [⟨1, "Bob", "bob@x.com", 0, 0⟩]) ∧
    specSearchMatch refPlatform "BOB@X.COM" ⟨1, "Bob", "bob@x.com", 0, 0⟩ = false := by
  decide

/-- C7, amended: when the store call does not fail, for every collection and every query
string `q`: if the database accepts `q` as a regular expression, `searchUsers` selects, in
collection order, exactly the documents whose email equals `q` lowercased and trimmed or
whose name matches the regular expression `q` without regard to case; it answers 200 with
that array when it is non-empty and forwards an error with status 404 when it is empty.  If
the database rejects `q`, its error is forwarded and answered with 500. -/
theorem C7_search (P : Platform) (env : StoreEnv) (req : Request) (store : Store) (q : String)
    (hq : req.query_search = some q) (hquiet : env.fault = none) :
    (∀ re, P.regexI (some q) = .ok re →
      ∃ selected,
        selected = store.filter (fun u => castEmail P (some q) == some u.email || re u.name) ∧
        (∀ u, u ∈ selected ↔
          u ∈ store ∧ (castEmail P (some q) = some u.email ∨ re u.name = true)) ∧
        (selected ≠ [] →
          searchUsers P env req store = (.sent ⟨200, [], .users selected⟩, store)) ∧
        (selected = [] →
          searchUsers P env req store =
            (.nextErr (newError "Користувачів не знайдено" 404), store) ∧
          (errorHandler (newError "Користувачів не знайдено" 404)).statusCode = 404)) ∧
    (∀ e, P.regexI (some q) = .error e →
      searchUsers P env req store = (.nextErr e.thrown, store) ∧
      (errorHandler e.thrown).statusCode = 500) := by
  refine ⟨fun re hre => ⟨_, rfl, fun u => ?_, fun hne => ?_, fun hnil => ⟨?_, by decide⟩⟩,
    fun e he => ⟨?_, ?_⟩⟩
  · simp [List.mem_filter]
  · have hlen : (store.filter
        (fun u => castEmail P (some q) == some u.email || re u.name)).length ≠ 0 :=
      fun h => hne (List.length_eq_zero.mp h)
    simp only [searchUsers, User.findSearch, hq, hquiet, hre, hlen, if_false, json]
  · simp only [searchUsers, User.findSearch, hq, hquiet, hre, hnil, List.length_nil, if_true]
  · simp only [searchUsers, User.findSearch, hq, hquiet, he]
  · rw [errorHandler_thrown]

/-- C7 on the example of the specification: `john` selects the document named `John Smith`
and the one whose email is `john`. -/
theorem C7_search_witness :
    searchUsers refPlatform (quiet 1 1) (searchRequest "john")
        [⟨1, "John Smith", "js@x.com", 0, 0⟩, ⟨2, "Ann", "ann@x.com", 0, 0⟩,
          ⟨3, "Bo", "john", 0, 0⟩] =
      (.sent ⟨200, [], .users [⟨1, "John Smith", "js@x.com", 0, 0⟩, ⟨3, "Bo", "john", 0, 0⟩]⟩,
        [⟨1, "John Smith", "js@x.com", 0, 0⟩, ⟨2, "Ann", "ann@x.com", 0, 0⟩,
          ⟨3, "Bo", "john", 0, 0⟩]) := by
  obtain ⟨selected, hsel, _, hsome, _⟩ :=
    (C7_search refPlatform (quiet 1 1) (searchRequest "john")
      [⟨1, "John Smith", "js@x.com", 0, 0⟩, ⟨2, "Ann", "ann@x.com", 0, 0⟩,
        ⟨3, "Bo", "john", 0, 0⟩] "john" rfl rfl).1
      (fun s => refSearch "john".data s.data) rfl
  have hval : selected =
      [⟨1, "John Smith", "js@x.com", 0, 0⟩, ⟨3, "Bo", "john", 0, 0⟩] := by
    rw [hsel]; decide
  subst hval
  exact hsome (by decide)

/-! ## The shape of error responses -/

/-- C8, at the failing path: when the store call of `getAllUsers` fails, `GET /users`
answers 500 with the body `message` alone, which is not a response `errorHandler` makes of
any error and not a validation answer; the sibling `GET /users/:email` answers the same
failure with the envelope. -/
theorem C8_getAllUsers_failure_shape (P : Platform) (e : StoreError) (id now : Nat)
    (store : Store) :
    app P ⟨some e, id, now⟩ listRequest store = (⟨500, [], .message e.message⟩, store) ∧
    (∀ err, errorHandler err ≠ ⟨500, [], .message e.message⟩) ∧
    (∀ status text, Body.message e.message ≠ .errorEnvelope status text) ∧
    (∀ list, Body.message e.message ≠ .errors list) ∧
    app refPlatform ⟨some e, id, now⟩ (getRequest "a@b.co") store =
      (errorHandler e.thrown, store) := by
  refine ⟨?_, fun err h => ?_, fun _ _ h => (by cases h), fun _ h => (by cases h), ?_⟩
  · have hd : dispatch usersRouter listRequest =
        some (⟨.GET, .root, [.authMiddleware, .getAllUsers]⟩, listRequest) := by decide
    have hchain1 := runChain_auth_pass P ⟨some e, id, now⟩ [.getAllUsers] listRequest store rfl
    have hchain2 := runChain_sent P ⟨some e, id, now⟩ .getAllUsers [] listRequest store store
      ⟨500, [], .message e.message⟩ rfl
    unfold app
    rw [hd]
    unfold serve
    simp only [hchain1, hchain2]
  · unfold errorHandler sendJson at h
    simp only at h
    split_ifs at h <;> exact absurd (congrArg Response.body h) (by simp)
  · have hd : dispatch usersRouter (getRequest "a@b.co") =
        some (⟨.GET, .email, [.authMiddleware, .validateUserEmail, .getUserByEmail]⟩,
          (getRequest "a@b.co").withParams (some "a@b.co")) := by decide
    have hpath := validateUserEmail_pass refPlatform
      ((getRequest "a@b.co").withParams (some "a@b.co")) "a@b.co" rfl (by decide)
    have hchain1 := runChain_auth_pass refPlatform ⟨some e, id, now⟩
      [.validateUserEmail, .getUserByEmail] ((getRequest "a@b.co").withParams (some "a@b.co"))
      store rfl
    have hchain2 := runChain_next refPlatform ⟨some e, id, now⟩ .validateUserEmail
      [.getUserByEmail] ((getRequest "a@b.co").withParams (some "a@b.co"))
      ((getRequest "a@b.co").withParams (some "a@b.co")) store store
      (congrArg (fun o => (o, store)) hpath)
    have hchain3 := runChain_nextErr refPlatform ⟨some e, id, now⟩ .getUserByEmail []
      ((getRequest "a@b.co").withParams (some "a@b.co")) store store e.thrown rfl
    unfold app
    rw [hd]
    unfold serve
    simp only [hchain1, hchain2, hchain3]

/-! ## Entries of a validation answer -/

/-- C9, as stated, fails: an empty name is one invalid field and yields two entries, one of
the required check and one of the length check. -/
theorem C9_empty_name_counterexample :
    validateUser refPlatform (postRequest (some "") (some "ada@x.com")) =
      .sent ⟨400, [], .errors
        [⟨some "", "Ім\x27я користувача є обов\x27язковим", "name", "body"⟩,
         ⟨some "", "Довжина імені має бути від 2 до 100 символів", "name", "body"⟩]⟩ ∧
    invalidFieldCount refPlatform (postRequest (some "") (some "ada@x.com")) = 1 := by
  decide

/-- C9, amended: for every request body the body validator rejects, the `errors` array of
the 400 response holds exactly one entry for each failed check (name required, name length,
email required, email format): a valid field yields none, a non-empty invalid field yields
one (a name of length 1, an email that is not an address), a missing or empty name yields
two. -/
theorem C9_entry_per_failed_check (P : Platform) (req : Request)
    (hreject : validateUser P req ≠ .next req) :
    ∃ errors, validateUser P req = .sent ⟨400, [], .errors errors⟩ ∧
      errors.length =
        (if (fieldString req.body_name).length = 0 then 1 else 0) +
        (if isLength (fieldString req.body_name) 2 100 = true then 0 else 1) +
        (if (fieldString req.body_email).length = 0 then 1 else 0) +
        (if P.isEmail (fieldString req.body_email) = true then 0 else 1) ∧
      ((fieldString req.body_name).length = 0 →
        (errors.filter fun entry => entry.param == "name").length = 2) ∧
      ((fieldString req.body_name).length ≠ 0 →
        isLength (fieldString req.body_name) 2 100 = false →
        (errors.filter fun entry => entry.param == "name").length = 1) ∧
      (bodyNameChain req = [] →
        (errors.filter fun entry => entry.param == "name").length = 0) ∧
      ((fieldString req.body_email).length ≠ 0 →
        P.isEmail (fieldString req.body_email) = false →
        (errors.filter fun entry => entry.param == "email").length = 1) ∧
      (bodyEmailChain P req = [] →
        (errors.filter fun entry => entry.param == "email").length = 0) := by
  rcases validateUser_cases P req with haccept | ⟨_, hsent⟩
  · exact absurd haccept hreject
  · refine ⟨_, hsent, ?_⟩
    have hshort : (fieldString req.body_name).length = 0 →
        isLength (fieldString req.body_name) 2 100 = false := by
      intro h; exact isLength_of_length_zero _ 2 100 (by decide) h
    unfold bodyNameChain bodyEmailChain
    by_cases h0 : (fieldString req.body_name).length = 0
    · have h1 := hshort h0
      by_cases h2 : (fieldString req.body_email).length = 0 <;>
        by_cases h3 : P.isEmail (fieldString req.body_email) = true <;>
        simp [h0, h1, h2, h3]
    · by_cases h1 : isLength (fieldString req.body_name) 2 100 = true <;>
        by_cases h2 : (fieldString req.body_email).length = 0 <;>
        by_cases h3 : P.isEmail (fieldString req.body_email) = true <;>
        simp [h0, h1, h2, h3]

/-- C9 on the examples of the specification: a name of length 1 and the email
`not-an-email` yield one entry each. -/
theorem C9_entry_per_failed_check_witness :
    ∃ errors,
      validateUser refPlatform (postRequest (some "A") (some "not-an-email")) =
        .sent ⟨400, [], .errors errors⟩ ∧
      errors.length = 2 ∧
      (errors.filter fun entry => entry.param == "name").length = 1 ∧
      (errors.filter fun entry => entry.param == "email").length = 1 := by
  obtain ⟨errors, hsent, hlen, _, hname, _, hemail, _⟩ :=
    C9_entry_per_failed_check refPlatform (postRequest (some "A") (some "not-an-email"))
      (by decide)
  exact ⟨errors, hsent, hlen, hname (by decide) (by decide), hemail (by decide) (by decide)⟩

/-! ## The store invariant -/

/-- C10, at the failing input: on a collection whose only document satisfies the invariant,
`PUT` with a name of three blanks passes the body validator, answers 200 and leaves a
document whose name is empty, while `POST` answers the same name with 400; and `POST` with
the name ` a ` stores the one-character name `a`. -/
theorem C10_update_blank_name :
    specRecordOk ⟨1, "Ann", "a@b.co", 0, 0⟩ = true ∧
    validateUser refPlatform (putRequest "a@b.co" (some "   ") (some "a@b.co")) =
      .next (putRequest "a@b.co" (some "   ") (some "a@b.co")) ∧
    app refPlatform (quiet 9 5) (putRequest "a@b.co" (some "   ") (some "a@b.co"))
        [⟨1, "Ann", "a@b.co", 0, 0⟩] =
      (⟨200, [], .user ⟨1, "", "a@b.co", 0, 5⟩⟩, [⟨1, "", "a@b.co", 0, 5⟩]) ∧
    specRecordOk ⟨1, "", "a@b.co", 0, 5⟩ = false ∧
    (app refPlatform (quiet 9 5) (postRequest (some "   ") (some "b@b.co"))
        [⟨1, "Ann", "a@b.co", 0, 0⟩]).1.statusCode = 400 ∧
    app refPlatform (quiet 9 5) (postRequest (some " a ") (some "b@b.co"))
        [⟨1, "Ann", "a@b.co", 0, 0⟩] =
      (⟨201, [], .user ⟨9, "a", "b@b.co", 5, 5⟩⟩,
        [⟨1, "Ann", "a@b.co", 0, 0⟩, ⟨9, "a", "b@b.co", 5, 5⟩]) ∧
    specRecordOk ⟨9, "a", "b@b.co", 5, 5⟩ = false := by
  decide

end UsersApi
